import Mathlib

/-!
Shallow embedding of the IPTV reachability prober (`iptv_searcher.py`) and
proofs of its specified properties.

The probe functions `async_test_single_link` and `test_single_link` are
modelled as pure functions over an abstract `Outcome` of the single network
request they issue (a response with a status code, a timeout, a
connection-level failure, or any other exception).  The batch drivers
`async_test_iptv_links` and the thread-pool fallback inside `test_iptv_links`
are modelled with an explicit completion order: the `as_completed` loops
consume results in an arbitrary order that is a permutation of the submitted
task indices, and write each result back at its original index.
-/

namespace IptvSearcher

/-- One channel record, the dict `{"name": ..., "link": ..., "status": ...}`
built by `search_iptv_links`.  Statuses are the literal strings the source
assigns. -/
structure Channel where
  name : String
  link : String
  status : String
  deriving DecidableEq, Repr

instance : Inhabited Channel := ⟨⟨"", "", "未测试"⟩⟩

/-- Abstract outcome of the single network request a probe issues:
a response with an HTTP status code, an elapsed timeout
(`asyncio.TimeoutError` / `requests.exceptions.Timeout`), a connection-level
failure (`aiohttp.ClientConnectionError` / `requests.exceptions.ConnectionError`),
or any other exception. -/
inductive Outcome where
  | response (code : Nat)
  | timeoutErr
  | connErr
  | otherErr
  deriving DecidableEq, Repr

/-- Embedding of the Python string method `link.startswith(pat)` used by both
probe functions: the character-sequence prefix test. -/
def startswith (link pat : String) : Bool := pat.data.isPrefixOf link.data

/-- Embedding of `async_test_single_link` (lines 86-126): non-HTTP(S) links
are marked `需手动测试` (needs manual check) with no request issued; otherwise
the outcome of the HEAD request is classified and written into the channel
dict, which is returned together with the channel's index. -/
def async_test_single_link (channel : Channel) (index : Nat) (outcome : Outcome) :
    Channel × Nat :=
  if !(startswith channel.link "http://" || startswith channel.link "https://") then
    ({ channel with status := "需手动测试" }, index)
  else
    match outcome with
    | .response code =>
        if code < 400 then ({ channel with status := "可用" }, index)
        else ({ channel with status := "不可用" }, index)
    | .timeoutErr => ({ channel with status := "超时" }, index)
    | .connErr => ({ channel with status := "连接失败" }, index)
    | .otherErr => ({ channel with status := "错误" }, index)

/-- Embedding of `test_single_link` (lines 203-247): identical classification
logic, issued with a streaming GET via `requests` instead of an aiohttp HEAD. -/
def test_single_link (channel : Channel) (index : Nat) (outcome : Outcome) :
    Channel × Nat :=
  if !(startswith channel.link "http://" || startswith channel.link "https://") then
    ({ channel with status := "需手动测试" }, index)
  else
    match outcome with
    | .response code =>
        if code < 400 then ({ channel with status := "可用" }, index)
        else ({ channel with status := "不可用" }, index)
    | .timeoutErr => ({ channel with status := "超时" }, index)
    | .connErr => ({ channel with status := "连接失败" }, index)
    | .otherErr => ({ channel with status := "错误" }, index)

/-- Number of network requests one invocation of `async_test_single_link`
issues: the non-HTTP(S) branch (lines 100-102) returns before any request;
the try block (lines 104-114) contains exactly one `session.head` call and no
retry loop. -/
def async_test_single_link_netcalls (channel : Channel) : Nat :=
  if !(startswith channel.link "http://" || startswith channel.link "https://") then 0
  else 1

/-- Number of network requests one invocation of `test_single_link` issues:
the non-HTTP(S) branch (lines 216-218) returns before any request; the try
block (lines 220-233) contains exactly one `requests.get` call and no retry
loop. -/
def test_single_link_netcalls (channel : Channel) : Nat :=
  if !(startswith channel.link "http://" || startswith channel.link "https://") then 0
  else 1

/-- The five statuses a probe can assign to an HTTP(S) link, keyed by the
outcome of the request (spec section 4.1 classification). -/
def classify_outcome (outcome : Outcome) : String :=
  match outcome with
  | .response code => if code < 400 then "可用" else "不可用"
  | .timeoutErr => "超时"
  | .connErr => "连接失败"
  | .otherErr => "错误"

/-- The six statuses a probe can assign (terminal statuses): the five
HTTP(S) classifications plus `需手动测试` for unsupported schemes. -/
def terminalStatuses : List String :=
  ["可用", "不可用", "超时", "连接失败", "错误", "需手动测试"]

/-- The four statuses the aggregator groups as unavailable
(line 189 / line 310). -/
def unavailableStatuses : List String := ["不可用", "超时", "连接失败", "错误"]

/-- Final statistics of one batch run (lines 186-191 / 307-312): total entry
count, the running available counter from the completion loop, and list scans
for the unavailable group, the manual-check bucket and the residual
`未知协议` (unknown protocol) bucket. -/
structure BatchStats where
  total : Nat
  available : Nat
  unavailable : Nat
  manual : Nat
  unknown : Nat
  deriving DecidableEq, Repr

/-- The statistics block shared by both batch drivers (lines 186-191 and
307-312): `available` is the loop counter, the three other buckets scan the
final list. -/
def computeStats (iptv_list : List Channel) (available_count : Nat) : BatchStats :=
  { total := iptv_list.length
    available := available_count
    unavailable := iptv_list.countP (fun c => unavailableStatuses.contains c.status)
    manual := iptv_list.countP (fun c => c.status == "需手动测试")
    unknown := iptv_list.countP (fun c => c.status == "未知协议") }

/-- The task list of the async driver (lines 161-164): one
`async_test_single_link` task is created per `(index, channel)` pair of
`enumerate(iptv_list)`.  `outcomes i` is the abstract network outcome of the
request the task for index `i` issues. -/
def asyncTasks (iptv_list : List Channel) (outcomes : Nat → Outcome) :
    List (Channel × Nat) :=
  iptv_list.enum.map (fun p => async_test_single_link p.2 p.1 (outcomes p.1))

/-- The task list of the thread-pool fallback (lines 278-282): one
`test_single_link` future is submitted per `(index, channel)` pair of
`enumerate(iptv_list)`. -/
def threadTasks (iptv_list : List Channel) (outcomes : Nat → Outcome) :
    List (Channel × Nat) :=
  iptv_list.enum.map (fun p => test_single_link p.2 p.1 (outcomes p.1))

/-- The indices on which a batch driver invokes the probe: exactly the first
components of `enumerate(iptv_list)` (lines 162-164 / 279-282).  The
`as_completed` loops only consume already-submitted futures and never
resubmit. -/
def probeInvocationIndices (iptv_list : List Channel) : List Nat :=
  iptv_list.enum.map Prod.fst

/-- The `as_completed` consumption loop (lines 167-170 / 287-291): results
arrive in an arbitrary completion order, given here as the list `order` of
task indices, and each result `(channel, idx)` is written back at index `idx`
of the list. -/
def processCompletions (tasks : List (Channel × Nat)) (order : List Nat)
    (iptv_list : List Channel) : List Channel :=
  order.foldl (fun acc i =>
    match tasks[i]? with
    | some r => acc.set r.2 r.1
    | none => acc) iptv_list

/-- The running `available_count` maintained by the consumption loop
(lines 155, 172-173 / 286, 293-294): it counts the completions whose returned
channel has status `可用`, in completion order. -/
def loopAvailableCount (tasks : List (Channel × Nat)) (order : List Nat) : Nat :=
  (order.filterMap (fun i => tasks[i]?)).countP (fun r => r.1.status == "可用")

/-- Embedding of `async_test_iptv_links` (lines 128-201): empty input returns
immediately with no statistics computed; otherwise one task per entry is
created, completions are consumed in `order` and written back by index, and
the final statistics block runs. -/
def async_test_iptv_links (iptv_list : List Channel) (outcomes : Nat → Outcome)
    (order : List Nat) : List Channel × Option BatchStats :=
  if iptv_list.isEmpty then (iptv_list, none)
  else
    let tasks := asyncTasks iptv_list outcomes
    let final := processCompletions tasks order iptv_list
    (final, some (computeStats final (loopAvailableCount tasks order)))

/-- Embedding of the thread-pool fallback body of `test_iptv_links`
(lines 268-322): identical structure to the async driver, with
`test_single_link` futures in a `ThreadPoolExecutor`. -/
def thread_test_iptv_links (iptv_list : List Channel) (outcomes : Nat → Outcome)
    (order : List Nat) : List Channel × Option BatchStats :=
  if iptv_list.isEmpty then (iptv_list, none)
  else
    let tasks := threadTasks iptv_list outcomes
    let final := processCompletions tasks order iptv_list
    (final, some (computeStats final (loopAvailableCount tasks order)))

/-- Embedding of `test_iptv_links` (lines 249-322): the async path is tried
first; if its event loop cannot be obtained (`primaryFails`), the thread-pool
fallback body runs inline in the single except block.  The fallback itself can
only fail once its `ThreadPoolExecutor` is created, which happens after the
empty-input early return; such a failure propagates to the caller
(`Except.error`), it is never converted to a per-entry status. -/
def test_iptv_links (primaryFails fallbackFails : Bool) (iptv_list : List Channel)
    (outcomes : Nat → Outcome) (order : List Nat) :
    Except Unit (List Channel × Option BatchStats) :=
  if !primaryFails then
    Except.ok (async_test_iptv_links iptv_list outcomes order)
  else if !iptv_list.isEmpty && fallbackFails then
    Except.error ()
  else
    Except.ok (thread_test_iptv_links iptv_list outcomes order)

/-! Basic lemmas about the two probe functions. -/

theorem test_single_link_eq_async : test_single_link = async_test_single_link := rfl

theorem async_test_single_link_fields (channel : Channel) (index : Nat)
    (outcome : Outcome) :
    (async_test_single_link channel index outcome).1.name = channel.name ∧
    (async_test_single_link channel index outcome).1.link = channel.link ∧
    (async_test_single_link channel index outcome).2 = index := by
  unfold async_test_single_link
  split
  · exact ⟨rfl, rfl, rfl⟩
  · split
    · split <;> exact ⟨rfl, rfl, rfl⟩
    · exact ⟨rfl, rfl, rfl⟩
    · exact ⟨rfl, rfl, rfl⟩
    · exact ⟨rfl, rfl, rfl⟩

theorem async_test_single_link_status_mem (channel : Channel) (index : Nat)
    (outcome : Outcome) :
    (async_test_single_link channel index outcome).1.status ∈ terminalStatuses := by
  unfold async_test_single_link terminalStatuses
  split
  · simp
  · split
    · split <;> simp
    · simp
    · simp
    · simp

theorem async_test_single_link_status_http (channel : Channel) (index : Nat)
    (outcome : Outcome)
    (h : (startswith channel.link "http://" || startswith channel.link "https://") = true) :
    (async_test_single_link channel index outcome).1.status = classify_outcome outcome := by
  cases outcome with
  | response code =>
      by_cases hc : code < 400 <;>
        simp [async_test_single_link, classify_outcome, h, hc]
  | timeoutErr => simp [async_test_single_link, classify_outcome, h]
  | connErr => simp [async_test_single_link, classify_outcome, h]
  | otherErr => simp [async_test_single_link, classify_outcome, h]

theorem async_test_single_link_status_nonhttp (channel : Channel) (index : Nat)
    (outcome : Outcome)
    (h : (startswith channel.link "http://" || startswith channel.link "https://") = false) :
    (async_test_single_link channel index outcome).1.status = "需手动测试" := by
  simp [async_test_single_link, h]

theorem terminalStatuses_ne (s : String) (hs : s ∈ terminalStatuses) :
    s ≠ "未测试" ∧ s ≠ "" := by
  simp only [terminalStatuses, List.mem_cons, List.not_mem_nil, or_false] at hs
  rcases hs with h | h | h | h | h | h <;> subst h <;> exact ⟨by decide, by decide⟩

/-! Lemmas about the task lists and the consumption loop. -/

theorem asyncTasks_length (l : List Channel) (oc : Nat → Outcome) :
    (asyncTasks l oc).length = l.length := by
  simp [asyncTasks, List.enum_length]

theorem asyncTasks_getElem? (l : List Channel) (oc : Nat → Outcome) (i : Nat)
    (hi : i < l.length) :
    (asyncTasks l oc)[i]? = some (async_test_single_link l[i] i (oc i)) := by
  have hie : i < l.enum.length := by simpa [List.enum_length] using hi
  simp [asyncTasks, List.getElem?_map, List.getElem?_eq_getElem hie, List.getElem_enum]

theorem processCompletions_length (tasks : List (Channel × Nat)) (order : List Nat)
    (init : List Channel) :
    (processCompletions tasks order init).length = init.length := by
  induction order generalizing init with
  | nil => rfl
  | cons i rest ih =>
      have hstep : processCompletions tasks (i :: rest) init =
          processCompletions tasks rest
            (match tasks[i]? with
             | some r => init.set r.2 r.1
             | none => init) := rfl
      rw [hstep]
      cases h : tasks[i]? with
      | none => simp only [h]; exact ih init
      | some r => simp only [h]; rw [ih, List.length_set]

theorem processCompletions_getElem? (tasks : List (Channel × Nat)) (order : List Nat)
    (init : List Channel) (htl : tasks.length = init.length)
    (hidx : ∀ i ∈ order, ∃ r, tasks[i]? = some r ∧ r.2 = i) (j : Nat) :
    (processCompletions tasks order init)[j]? =
      if j ∈ order then (tasks[j]?).map Prod.fst else init[j]? := by
  induction order generalizing init with
  | nil => simp [processCompletions]
  | cons i rest ih =>
      obtain ⟨r, hr, hri⟩ := hidx i (List.mem_cons_self i rest)
      have hi : i < tasks.length := (List.getElem?_eq_some.mp hr).1
      have hstep : processCompletions tasks (i :: rest) init =
          processCompletions tasks rest (init.set r.2 r.1) := by
        show processCompletions tasks rest
            (match tasks[i]? with
             | some s => init.set s.2 s.1
             | none => init) = _
        rw [hr]
      rw [hstep, ih (init.set r.2 r.1) (by rw [List.length_set]; exact htl)
        (fun k hk => hidx k (List.mem_cons_of_mem i hk))]
      by_cases hjr : j ∈ rest
      · simp [hjr]
      · by_cases hji : j = i
        · subst hji
          have hjlen : j < init.length := htl ▸ hi
          rw [hri, List.getElem?_set_self hjlen]
          simp [hjr, hr]
        · rw [hri, List.getElem?_set_ne (fun h => hji h.symm)]
          simp [hjr, hji]

theorem async_hidx (l : List Channel) (oc : Nat → Outcome) (order : List Nat)
    (hord : order.Perm (List.range l.length)) :
    ∀ i ∈ order, ∃ r, (asyncTasks l oc)[i]? = some r ∧ r.2 = i := by
  intro i hiord
  have hi : i < l.length := List.mem_range.mp (hord.mem_iff.mp hiord)
  exact ⟨_, asyncTasks_getElem? l oc i hi,
    (async_test_single_link_fields l[i] i (oc i)).2.2⟩

theorem async_final_eq (l : List Channel) (oc : Nat → Outcome) (order : List Nat)
    (hord : order.Perm (List.range l.length)) :
    processCompletions (asyncTasks l oc) order l = (asyncTasks l oc).map Prod.fst := by
  apply List.ext_getElem?
  intro n
  rw [List.getElem?_map]
  rw [processCompletions_getElem? _ _ _ (asyncTasks_length l oc)
    (async_hidx l oc order hord) n]
  by_cases hn : n < l.length
  · have hmem : n ∈ order := hord.mem_iff.mpr (List.mem_range.mpr hn)
    simp [hmem]
  · have h1 : (asyncTasks l oc)[n]? = none :=
      List.getElem?_eq_none (by rw [asyncTasks_length]; omega)
    have h2 : l[n]? = none := List.getElem?_eq_none (by omega)
    have hmem : n ∉ order := fun h => hn (List.mem_range.mp (hord.mem_iff.mp h))
    simp [hmem, h1, h2]

theorem range_length_filterMap_getElem? {α : Type} (l : List α) :
    (List.range l.length).filterMap (fun i => l[i]?) = l := by
  induction l with
  | nil => rfl
  | cons a t ih =>
      rw [List.length_cons, List.range_succ_eq_map, List.filterMap_cons,
        List.filterMap_map]
      have hf : ((fun i => (a :: t)[i]?) ∘ Nat.succ) = fun i => t[i]? :=
        funext fun i => List.getElem?_cons_succ
      rw [hf, ih]
      simp

theorem loopAvailableCount_perm (tasks : List (Channel × Nat)) (order : List Nat)
    (hord : order.Perm (List.range tasks.length)) :
    loopAvailableCount tasks order =
      tasks.countP (fun r => r.1.status == "可用") := by
  unfold loopAvailableCount
  have hperm : (order.filterMap (fun i => tasks[i]?)).Perm
      ((List.range tasks.length).filterMap (fun i => tasks[i]?)) :=
    hord.filterMap _
  rw [List.Perm.countP_eq _ hperm, range_length_filterMap_getElem?]

theorem countP_status_partition (l : List Channel)
    (h : ∀ ch ∈ l, ch.status ∈ terminalStatuses) :
    l.countP (fun c => c.status == "可用") +
      l.countP (fun c => unavailableStatuses.contains c.status) +
      l.countP (fun c => c.status == "需手动测试") +
      l.countP (fun c => c.status == "未知协议") = l.length := by
  induction l with
  | nil => rfl
  | cons ch t ih =>
      have hch := h ch (List.mem_cons_self ch t)
      have ht := ih (fun x hx => h x (List.mem_cons_of_mem ch hx))
      simp only [terminalStatuses, List.mem_cons, List.not_mem_nil, or_false] at hch
      rcases hch with hst | hst | hst | hst | hst | hst <;>
        simp only [List.countP_cons, List.length_cons, hst] <;>
        simp [unavailableStatuses] at ht ⊢ <;>
        omega

/-! The thread-pool fallback computes the same results as the async driver. -/

theorem threadTasks_eq_async (l : List Channel) (oc : Nat → Outcome) :
    threadTasks l oc = asyncTasks l oc := by
  unfold threadTasks asyncTasks
  rw [test_single_link_eq_async]

theorem thread_eq_async_batch (l : List Channel) (oc : Nat → Outcome)
    (order : List Nat) :
    thread_test_iptv_links l oc order = async_test_iptv_links l oc order := by
  unfold thread_test_iptv_links async_test_iptv_links
  rw [threadTasks_eq_async]

theorem mem_asyncTasks_map_fst_status (l : List Channel) (oc : Nat → Outcome)
    (ch : Channel) (hch : ch ∈ (asyncTasks l oc).map Prod.fst) :
    ch.status ∈ terminalStatuses := by
  rcases List.mem_map.mp hch with ⟨r, hr, rfl⟩
  unfold asyncTasks at hr
  rcases List.mem_map.mp hr with ⟨p, hp, rfl⟩
  exact async_test_single_link_status_mem p.2 p.1 (oc p.1)

theorem async_batch_fst (l : List Channel) (oc : Nat → Outcome) (order : List Nat)
    (hemp : ¬ l.isEmpty = true) :
    (async_test_iptv_links l oc order).1 =
      processCompletions (asyncTasks l oc) order l := by
  unfold async_test_iptv_links
  rw [if_neg hemp]

theorem async_batch_snd (l : List Channel) (oc : Nat → Outcome) (order : List Nat)
    (hemp : ¬ l.isEmpty = true) :
    (async_test_iptv_links l oc order).2 =
      some (computeStats (processCompletions (asyncTasks l oc) order l)
        (loopAvailableCount (asyncTasks l oc) order)) := by
  unfold async_test_iptv_links
  rw [if_neg hemp]

/-! Claim theorems. -/

/-- C1: for every entry whose link has scheme HTTP or HTTPS, a single probe
invocation yields exactly one of the five statuses, determined by the outcome
of its one request: a response with status code < 400 yields 可用 (Available),
code >= 400 yields 不可用 (Unavailable), a timeout yields 超时 (Timeout), a
connection-level failure yields 连接失败 (ConnectionFailed), and any other
exception yields 错误 (Error).  Both probe functions are total functions of
the outcome, so no exception escapes the probe boundary.  -/
theorem C1_probe_classification (channel : Channel) (index : Nat) (outcome : Outcome)
    (h : startswith channel.link "http://" = true ∨
         startswith channel.link "https://" = true) :
    (async_test_single_link channel index outcome).1.status = classify_outcome outcome ∧
    (test_single_link channel index outcome).1.status = classify_outcome outcome ∧
    classify_outcome outcome ∈ ["可用", "不可用", "超时", "连接失败", "错误"] := by
  have hb : (startswith channel.link "http://" ||
      startswith channel.link "https://") = true := by
    rcases h with h | h <;> simp [h]
  refine ⟨async_test_single_link_status_http channel index outcome hb, ?_, ?_⟩
  · rw [test_single_link_eq_async]
    exact async_test_single_link_status_http channel index outcome hb
  · cases outcome with
    | response code => by_cases hc : code < 400 <;> simp [classify_outcome, hc]
    | timeoutErr => simp [classify_outcome]
    | connErr => simp [classify_outcome]
    | otherErr => simp [classify_outcome]

/-- Witness for C1: the probe on a concrete HTTP entry with a 200 response. -/
theorem C1_probe_classification_witness :
    (async_test_single_link ⟨"B", "http://stub/200", "未测试"⟩ 0
        (Outcome.response 200)).1.status = classify_outcome (Outcome.response 200) ∧
    (test_single_link ⟨"B", "http://stub/200", "未测试"⟩ 0
        (Outcome.response 200)).1.status = classify_outcome (Outcome.response 200) ∧
    classify_outcome (Outcome.response 200) ∈
      ["可用", "不可用", "超时", "连接失败", "错误"] :=
  C1_probe_classification ⟨"B", "http://stub/200", "未测试"⟩ 0 (Outcome.response 200)
    (Or.inl (by decide))

/-- C4: for every entry whose link scheme is not HTTP or HTTPS, both probe
functions return 需手动测试 (NeedsManualCheck) regardless of any network
outcome, and issue zero network requests. -/
theorem C4_nonhttp_manual_no_network (channel : Channel) (index : Nat)
    (outcome : Outcome)
    (h : (startswith channel.link "http://" ||
      startswith channel.link "https://") = false) :
    (async_test_single_link channel index outcome).1.status = "需手动测试" ∧
    (test_single_link channel index outcome).1.status = "需手动测试" ∧
    async_test_single_link_netcalls channel = 0 ∧
    test_single_link_netcalls channel = 0 := by
  refine ⟨async_test_single_link_status_nonhttp channel index outcome h, ?_, ?_, ?_⟩
  · rw [test_single_link_eq_async]
    exact async_test_single_link_status_nonhttp channel index outcome h
  · simp [async_test_single_link_netcalls, h]
  · simp [test_single_link_netcalls, h]

/-- Witness for C4: the spec scenario entry with link `ftp://x`. -/
theorem C4_nonhttp_manual_no_network_witness :
    (async_test_single_link ⟨"A", "ftp://x", "未测试"⟩ 0
        Outcome.otherErr).1.status = "需手动测试" ∧
    (test_single_link ⟨"A", "ftp://x", "未测试"⟩ 0
        Outcome.otherErr).1.status = "需手动测试" ∧
    async_test_single_link_netcalls ⟨"A", "ftp://x", "未测试"⟩ = 0 ∧
    test_single_link_netcalls ⟨"A", "ftp://x", "未测试"⟩ = 0 :=
  C4_nonhttp_manual_no_network ⟨"A", "ftp://x", "未测试"⟩ 0 Outcome.otherErr (by decide)

/-- C7 counterexample: the claim says a probe does not write to the Entry and
only returns the resulting status.  On the code, `async_test_single_link`
(line 116, `channel['status'] = "可用"`) writes the status into the channel
record itself: the entry it returns differs from the entry it was given,
whose status was 未测试. -/
theorem C7_probe_writes_entry_counterexample :
    (async_test_single_link ⟨"B", "http://stub/200", "未测试"⟩ 0
        (Outcome.response 200)).1 ≠ ⟨"B", "http://stub/200", "未测试"⟩ ∧
    (async_test_single_link ⟨"B", "http://stub/200", "未测试"⟩ 0
        (Outcome.response 200)).1.status = "可用" := by
  constructor
  · intro hcontra
    have : (async_test_single_link ⟨"B", "http://stub/200", "未测试"⟩ 0
        (Outcome.response 200)).1.status = "未测试" := by rw [hcontra]
    revert this
    decide
  · decide

/-- C7 amended: a probe invocation writes the resulting status directly into
the entry's status field — this is its only mutation, name and link are
untouched — and returns the updated entry together with the entry's index;
the caller then stores the returned (already updated) entry back at that
index. -/
theorem C7_probe_mutates_status_only (channel : Channel) (index : Nat)
    (outcome : Outcome) :
    (async_test_single_link channel index outcome).1.name = channel.name ∧
    (async_test_single_link channel index outcome).1.link = channel.link ∧
    (async_test_single_link channel index outcome).2 = index ∧
    (test_single_link channel index outcome).1.name = channel.name ∧
    (test_single_link channel index outcome).1.link = channel.link ∧
    (test_single_link channel index outcome).2 = index := by
  obtain ⟨h1, h2, h3⟩ := async_test_single_link_fields channel index outcome
  rw [test_single_link_eq_async]
  exact ⟨h1, h2, h3, h1, h2, h3⟩

/-- C2: after a batch completes (the completion order being a permutation of
the submitted task indices), every entry of the returned list carries one of
the six terminal statuses a probe can assign, never the initial 未测试
(Untested) and never the empty string.  Holds for the async driver and for the
thread-pool fallback. -/
theorem C2_batch_statuses_terminal (l : List Channel) (oc : Nat → Outcome)
    (order : List Nat) (hord : order.Perm (List.range l.length)) :
    (∀ ch ∈ (async_test_iptv_links l oc order).1,
        ch.status ∈ terminalStatuses ∧ ch.status ≠ "未测试" ∧ ch.status ≠ "") ∧
    (∀ ch ∈ (thread_test_iptv_links l oc order).1,
        ch.status ∈ terminalStatuses ∧ ch.status ≠ "未测试" ∧ ch.status ≠ "") := by
  have hasync : ∀ ch ∈ (async_test_iptv_links l oc order).1,
      ch.status ∈ terminalStatuses ∧ ch.status ≠ "未测试" ∧ ch.status ≠ "" := by
    intro ch hch
    by_cases hemp : l.isEmpty = true
    · rw [List.isEmpty_iff.mp hemp] at hch
      simp [async_test_iptv_links] at hch
    · rw [async_batch_fst l oc order hemp, async_final_eq l oc order hord] at hch
      have hmem := mem_asyncTasks_map_fst_status l oc ch hch
      exact ⟨hmem, terminalStatuses_ne ch.status hmem⟩
  exact ⟨hasync, by rw [thread_eq_async_batch]; exact hasync⟩

/-- Witness for C2: the single entry returned by a concrete one-entry batch. -/
theorem C2_batch_statuses_terminal_witness :
    (⟨"A", "ftp://x", "需手动测试"⟩ : Channel).status ∈ terminalStatuses ∧
    (⟨"A", "ftp://x", "需手动测试"⟩ : Channel).status ≠ "未测试" ∧
    (⟨"A", "ftp://x", "需手动测试"⟩ : Channel).status ≠ "" :=
  (C2_batch_statuses_terminal [⟨"A", "ftp://x", "未测试"⟩] (fun _ => Outcome.otherErr)
    [0] (by decide)).1 ⟨"A", "ftp://x", "需手动测试"⟩ (by decide)

/-- C3: the list a batch returns preserves input order: position by position
its links are exactly the input links, for every completion order that is a
permutation of the task indices.  Holds for the async driver and for the
thread-pool fallback. -/
theorem C3_batch_preserves_order (l : List Channel) (oc : Nat → Outcome)
    (order : List Nat) (hord : order.Perm (List.range l.length)) :
    (async_test_iptv_links l oc order).1.map Channel.link = l.map Channel.link ∧
    (thread_test_iptv_links l oc order).1.map Channel.link = l.map Channel.link := by
  have hasync : (async_test_iptv_links l oc order).1.map Channel.link =
      l.map Channel.link := by
    by_cases hemp : l.isEmpty = true
    · rw [List.isEmpty_iff.mp hemp]
      rfl
    · rw [async_batch_fst l oc order hemp, async_final_eq l oc order hord]
      apply List.ext_getElem?
      intro n
      rw [List.getElem?_map, List.getElem?_map, List.getElem?_map]
      by_cases hn : n < l.length
      · rw [asyncTasks_getElem? l oc n hn, List.getElem?_eq_getElem hn]
        simp [(async_test_single_link_fields l[n] n (oc n)).2.1]
      · rw [List.getElem?_eq_none (le_of_not_lt hn),
          List.getElem?_eq_none (by rw [asyncTasks_length]; omega)]
        rfl
  exact ⟨hasync, by rw [thread_eq_async_batch]; exact hasync⟩

/-- Witness for C3: a two-entry batch consumed in reversed completion order. -/
theorem C3_batch_preserves_order_witness :
    (async_test_iptv_links
        [⟨"A", "ftp://x", "未测试"⟩, ⟨"B", "http://stub/200", "未测试"⟩]
        (fun _ => Outcome.response 200) [1, 0]).1.map Channel.link =
      [⟨"A", "ftp://x", "未测试"⟩,
        (⟨"B", "http://stub/200", "未测试"⟩ : Channel)].map Channel.link :=
  (C3_batch_preserves_order
    [⟨"A", "ftp://x", "未测试"⟩, ⟨"B", "http://stub/200", "未测试"⟩]
    (fun _ => Outcome.response 200) [1, 0] (by decide)).1

/-- C5: whenever a batch reports final statistics, the four reported buckets
(available; the unavailable group 不可用/超时/连接失败/错误; 需手动测试; the
residual 未知协议 bucket) sum to the total number of entries.  Holds for the
async driver and for the thread-pool fallback. -/
theorem C5_stats_partition (l : List Channel) (oc : Nat → Outcome)
    (order : List Nat) (hord : order.Perm (List.range l.length)) :
    (∀ stats, (async_test_iptv_links l oc order).2 = some stats →
        stats.available + stats.unavailable + stats.manual + stats.unknown =
          stats.total) ∧
    (∀ stats, (thread_test_iptv_links l oc order).2 = some stats →
        stats.available + stats.unavailable + stats.manual + stats.unknown =
          stats.total) := by
  have hasync : ∀ stats, (async_test_iptv_links l oc order).2 = some stats →
      stats.available + stats.unavailable + stats.manual + stats.unknown =
        stats.total := by
    intro stats hstats
    by_cases hemp : l.isEmpty = true
    · rw [List.isEmpty_iff.mp hemp] at hstats
      simp [async_test_iptv_links] at hstats
    · rw [async_batch_snd l oc order hemp] at hstats
      obtain rfl := Option.some.inj hstats
      have hfe : processCompletions (asyncTasks l oc) order l =
          (asyncTasks l oc).map Prod.fst := async_final_eq l oc order hord
      have hcnt : loopAvailableCount (asyncTasks l oc) order =
          (processCompletions (asyncTasks l oc) order l).countP
            (fun c => c.status == "可用") := by
        rw [loopAvailableCount_perm (asyncTasks l oc) order
          (by rw [asyncTasks_length]; exact hord), hfe, List.countP_map]
        rfl
      have hterm : ∀ ch ∈ processCompletions (asyncTasks l oc) order l,
          ch.status ∈ terminalStatuses := by
        rw [hfe]
        exact fun ch hch => mem_asyncTasks_map_fst_status l oc ch hch
      simp only [computeStats, hcnt]
      exact countP_status_partition (processCompletions (asyncTasks l oc) order l) hterm
  exact ⟨hasync, by rw [thread_eq_async_batch]; exact hasync⟩

/-- Witness for C5: the statistics of a concrete one-entry batch. -/
theorem C5_stats_partition_witness :
    (async_test_iptv_links [⟨"B", "http://stub/200", "未测试"⟩]
        (fun _ => Outcome.response 200) [0]).2 =
      some ⟨1, 1, 0, 0, 0⟩ ∧
    (⟨1, 1, 0, 0, 0⟩ : BatchStats).available + (⟨1, 1, 0, 0, 0⟩ : BatchStats).unavailable +
        (⟨1, 1, 0, 0, 0⟩ : BatchStats).manual + (⟨1, 1, 0, 0, 0⟩ : BatchStats).unknown =
      (⟨1, 1, 0, 0, 0⟩ : BatchStats).total :=
  ⟨by decide,
    (C5_stats_partition [⟨"B", "http://stub/200", "未测试"⟩]
      (fun _ => Outcome.response 200) [0] (by decide)).1 ⟨1, 1, 0, 0, 0⟩ (by decide)⟩

/-- C6: the thread-pool fallback produces the identical result (same final
entry list and same statistics) as the async driver for identical per-entry
outcomes and completion order; when the primary mechanism fails to initialize
the dispatcher returns exactly the fallback result, the fallback being
attempted as the single remaining branch; and when the fallback itself fails
the batch reports a fatal error to the caller instead of any per-entry
status. -/
theorem C6_fallback_refinement (l : List Channel) (oc : Nat → Outcome)
    (order : List Nat) :
    thread_test_iptv_links l oc order = async_test_iptv_links l oc order ∧
    test_iptv_links true false l oc order =
      Except.ok (async_test_iptv_links l oc order) ∧
    (l ≠ [] → test_iptv_links true true l oc order = Except.error ()) := by
  refine ⟨thread_eq_async_batch l oc order, ?_, ?_⟩
  · unfold test_iptv_links
    simp [thread_eq_async_batch]
  · intro hne
    have hemp : l.isEmpty = false := by
      cases l with
      | nil => exact absurd rfl hne
      | cons a t => rfl
    unfold test_iptv_links
    simp [hemp]

/-- Witness for C6 at a concrete one-entry batch. -/
theorem C6_fallback_refinement_witness :
    thread_test_iptv_links [⟨"A", "ftp://x", "未测试"⟩]
        (fun _ => Outcome.otherErr) [0] =
      async_test_iptv_links [⟨"A", "ftp://x", "未测试"⟩]
        (fun _ => Outcome.otherErr) [0] ∧
    test_iptv_links true false [⟨"A", "ftp://x", "未测试"⟩]
        (fun _ => Outcome.otherErr) [0] =
      Except.ok (async_test_iptv_links [⟨"A", "ftp://x", "未测试"⟩]
        (fun _ => Outcome.otherErr) [0]) ∧
    test_iptv_links true true [⟨"A", "ftp://x", "未测试"⟩]
        (fun _ => Outcome.otherErr) [0] = Except.error () := by
  obtain ⟨h1, h2, h3⟩ := C6_fallback_refinement [⟨"A", "ftp://x", "未测试"⟩]
    (fun _ => Outcome.otherErr) [0]
  exact ⟨h1, h2, h3 (by simp)⟩

/-- C8: for the empty input list every batch driver returns immediately with
the list unchanged (total 0), computes no statistics block at all (so no
percentage is computed and no division by zero can occur), and the top-level
dispatcher returns successfully — no exception reaches the caller — for every
combination of mechanism failures. -/
theorem C8_empty_batch (oc : Nat → Outcome) (order : List Nat)
    (primaryFails fallbackFails : Bool) :
    async_test_iptv_links [] oc order = ([], none) ∧
    thread_test_iptv_links [] oc order = ([], none) ∧
    test_iptv_links primaryFails fallbackFails [] oc order =
      Except.ok ([], none) := by
  refine ⟨rfl, rfl, ?_⟩
  cases primaryFails <;> cases fallbackFails <;> rfl

/-- C9: within one batch pass every entry is probed exactly once: the driver
creates exactly one probe task per input index, and a single probe invocation
issues at most one network request (no retries). -/
theorem C9_probe_once (l : List Channel) (j : Nat) (hj : j < l.length) :
    (probeInvocationIndices l).count j = 1 ∧
    async_test_single_link_netcalls l[j] ≤ 1 ∧
    test_single_link_netcalls l[j] ≤ 1 := by
  refine ⟨?_, ?_, ?_⟩
  · unfold probeInvocationIndices
    rw [List.enum_map_fst]
    exact List.count_eq_one_of_mem (List.nodup_range l.length)
      (List.mem_range.mpr hj)
  · unfold async_test_single_link_netcalls
    split <;> omega
  · unfold test_single_link_netcalls
    split <;> omega

/-- Witness for C9: a one-entry list at index 0. -/
theorem C9_probe_once_witness :
    (probeInvocationIndices [⟨"A", "ftp://x", "未测试"⟩]).count 0 = 1 ∧
    async_test_single_link_netcalls ⟨"A", "ftp://x", "未测试"⟩ ≤ 1 ∧
    test_single_link_netcalls ⟨"A", "ftp://x", "未测试"⟩ ≤ 1 :=
  C9_probe_once [⟨"A", "ftp://x", "未测试"⟩] 0 (by decide)

end IptvSearcher
